import Mathlib

/-!
# Verification of the DeepPhysX.Sofa sample-production pipeline

Shallow embedding of the three source files of the repository:

* `examples/demos/Liver/UNet/Environment/LiverTraining.py` — the grid-remapped
  variant (`LiverUNet` namespace below): `compute_input`, `compute_output`,
  `apply_prediction` working through a regular grid.
* `examples/demos/Liver/FC/Environment/LiverTraining.py` — the coincident
  representation variant (`LiverFC` namespace below).
* `src/Environment/launcherSofaEnvironment.py` — the worker process entry
  point (`Launcher` namespace below).

Real-valued simulation quantities (numpy double arrays of shape `(n, 3)`) are
modelled as `List Vec3` with `Vec3 = ℚ × ℚ × ℚ`: the code performs only
assignment, addition and subtraction on them, which is exact.  The numpy
row-assignment `F[i] = v` is `List.set`, fancy-index assignment
`F[idx] = vals` is a left fold of `List.set` (later duplicate indices win,
as in numpy), and reading `F[i]` is `List.getD · 0`.
-/

abbrev Scalar := ℚ

abbrev Vec3 := Scalar × Scalar × Scalar

/-- Squared Euclidean norm.  The source tests `norm(F[node]) == 0.`; a float
norm is zero exactly when the sum of squares is zero, which `normSq` captures
without leaving `ℚ`. -/
def normSq (v : Vec3) : Scalar := v.1 * v.1 + v.2.1 * v.2.1 + v.2.2 * v.2.2

lemma normSq_eq_zero_iff (v : Vec3) : normSq v = 0 ↔ v = 0 := by
  obtain ⟨a, b, c⟩ := v
  constructor
  · intro h
    simp only [normSq] at h
    have ha : a * a = 0 := by nlinarith [mul_self_nonneg a, mul_self_nonneg b, mul_self_nonneg c]
    have hb : b * b = 0 := by nlinarith [mul_self_nonneg a, mul_self_nonneg b, mul_self_nonneg c]
    have hc : c * c = 0 := by nlinarith [mul_self_nonneg a, mul_self_nonneg b, mul_self_nonneg c]
    have : a = 0 := by exact mul_self_eq_zero.mp ha
    have : b = 0 := by exact mul_self_eq_zero.mp hb
    have : c = 0 := by exact mul_self_eq_zero.mp hc
    simp_all [Prod.ext_iff]
  · intro h
    simp [Prod.ext_iff] at h
    simp [normSq, h.1, h.2.1, h.2.2]

/-! ## List access helpers -/

lemma getD_set_eq {α : Type} (l : List α) (n : Nat) (v d : α) (h : n < l.length) :
    (l.set n v).getD n d = v := by
  induction l generalizing n with
  | nil => simp at h
  | cons a as ih =>
    cases n with
    | zero => simp [List.getD]
    | succ m =>
      simp only [List.set, List.getD, List.getElem?_cons_succ]
      exact ih m (by simpa using h)

lemma getD_set_ne {α : Type} (l : List α) (n m : Nat) (v d : α) (h : n ≠ m) :
    (l.set n v).getD m d = l.getD m d := by
  induction l generalizing n m with
  | nil => simp
  | cons a as ih =>
    cases n with
    | zero =>
      cases m with
      | zero => exact absurd rfl h
      | succ k => simp [List.getD]
    | succ n' =>
      cases m with
      | zero => simp [List.getD]
      | succ k =>
        simp only [List.set, List.getD, List.getElem?_cons_succ]
        exact ih n' k (fun hnk => h (by omega))

lemma getD_replicate_self {α : Type} (n m : Nat) (d : α) :
    (List.replicate n d).getD m d = d := by
  induction n generalizing m with
  | zero => simp [List.getD]
  | succ k ih =>
    cases m with
    | zero => simp [List.replicate, List.getD]
    | succ m' =>
      simp only [List.replicate, List.getD, List.getElem?_cons_succ]
      exact ih m'

lemma getD_eq_default_of_le {α : Type} (l : List α) (n : Nat) (d : α)
    (h : l.length ≤ n) : l.getD n d = d := by
  induction l generalizing n with
  | nil => simp [List.getD]
  | cons a as ih =>
    cases n with
    | zero => simp at h
    | succ m =>
      simp only [List.getD, List.getElem?_cons_succ]
      exact ih m (by simpa using h)

lemma getD_zipWith {α : Type} (f : α → α → α) (l₁ l₂ : List α) (n : Nat) (d : α)
    (h₁ : n < l₁.length) (h₂ : n < l₂.length) :
    (List.zipWith f l₁ l₂).getD n d = f (l₁.getD n d) (l₂.getD n d) := by
  induction l₁ generalizing l₂ n with
  | nil => simp at h₁
  | cons a as ih =>
    cases l₂ with
    | nil => simp at h₂
    | cons b bs =>
      cases n with
      | zero => simp [List.getD]
      | succ m =>
        simp only [List.zipWith, List.getD, List.getElem?_cons_succ]
        exact ih bs m (by simpa using h₁) (by simpa using h₂)

lemma length_zipWith {α : Type} (f : α → α → α) (l₁ l₂ : List α) :
    (List.zipWith f l₁ l₂).length = min l₁.length l₂.length := by
  simp [List.length_zipWith]

lemma getD_map_of_lt {α β : Type} (f : α → β) (l : List α) (n : Nat) (d : α) (d' : β)
    (h : n < l.length) : (l.map f).getD n d' = f (l.getD n d) := by
  induction l generalizing n with
  | nil => simp at h
  | cons a as ih =>
    cases n with
    | zero => simp [List.getD]
    | succ m =>
      simp only [List.map, List.getD, List.getElem?_cons_succ]
      exact ih m (by simpa using h)

/-! ## Shared simulation objects -/

/-- A SOFA `MechanicalObject`: the `position` and `rest_position` Data fields
that the training scripts read and write. -/
structure MechObj where
  position : List Vec3
  rest_position : List Vec3

/-- numpy fancy-index assignment `F[indices] = values` on rows, expressed as a
left fold of single-row writes: numpy assigns row by row in order, so a later
duplicate index wins. -/
def scatterPairs (F : List Vec3) (pairs : List (Nat × Vec3)) : List Vec3 :=
  pairs.foldl (fun a p => a.set p.1 p.2) F

lemma length_scatterPairs (F : List Vec3) (pairs : List (Nat × Vec3)) :
    (scatterPairs F pairs).length = F.length := by
  induction pairs generalizing F with
  | nil => rfl
  | cons p ps ih => simpa [scatterPairs, List.foldl] using ih (F.set p.1 p.2)

lemma scatterPairs_getD_not_mem (F : List Vec3) (pairs : List (Nat × Vec3)) (c : Nat)
    (h : c ∉ pairs.map Prod.fst) :
    (scatterPairs F pairs).getD c 0 = F.getD c 0 := by
  induction pairs generalizing F with
  | nil => rfl
  | cons p ps ih =>
    simp only [List.map, List.mem_cons, not_or] at h
    have hrest : (scatterPairs (F.set p.1 p.2) ps).getD c 0 = (F.set p.1 p.2).getD c 0 :=
      ih (F.set p.1 p.2) h.2
    have hstep : scatterPairs F (p :: ps) = scatterPairs (F.set p.1 p.2) ps := rfl
    rw [hstep, hrest]
    exact getD_set_ne F p.1 c p.2 0 (Ne.symm h.1)

lemma mem_map_fst_zip {α β : Type} (l₁ : List α) (l₂ : List β) (c : α)
    (h : c ∈ (l₁.zip l₂).map Prod.fst) : c ∈ l₁ := by
  induction l₁ generalizing l₂ with
  | nil => simp [List.zip] at h
  | cons a as ih =>
    cases l₂ with
    | nil => simp [List.zip] at h
    | cons b bs =>
      simp only [List.zip_cons_cons, List.map, List.mem_cons] at h
      rcases h with h | h
      · simp [h]
      · exact List.mem_cons_of_mem a (ih bs h)

lemma scatterPairs_getD_nodup (F : List Vec3) (idx : List Nat) (vals : List Vec3)
    (j : Nat) (hj : j < idx.length) (hjv : j < vals.length) (hnd : idx.Nodup)
    (hlt : idx.getD j 0 < F.length) :
    (scatterPairs F (idx.zip vals)).getD (idx.getD j 0) 0 = vals.getD j 0 := by
  induction idx generalizing vals F j with
  | nil => simp at hj
  | cons i is ih =>
    cases vals with
    | nil => simp at hjv
    | cons v vs =>
      have hnd' : i ∉ is ∧ is.Nodup := by simpa using hnd
      cases j with
      | zero =>
        have hmem : i ∉ (is.zip vs).map Prod.fst := fun hm => hnd'.1 (mem_map_fst_zip is vs i hm)
        have h0 : (i :: is).getD 0 0 = i := rfl
        rw [h0] at hlt ⊢
        have hrest : (scatterPairs (F.set i v) (is.zip vs)).getD i 0 = (F.set i v).getD i 0 :=
          scatterPairs_getD_not_mem (F.set i v) (is.zip vs) i hmem
        have hstep : scatterPairs F ((i :: is).zip (v :: vs))
            = scatterPairs (F.set i v) (is.zip vs) := rfl
        rw [hstep, hrest]
        exact getD_set_eq F i v 0 hlt
      | succ j' =>
        have hsucc : (i :: is).getD (j' + 1) 0 = is.getD j' 0 := rfl
        rw [hsucc] at hlt ⊢
        have hstep : scatterPairs F ((i :: is).zip (v :: vs))
            = scatterPairs (F.set i v) (is.zip vs) := rfl
        have hvals : (v :: vs).getD (j' + 1) 0 = vs.getD j' 0 := rfl
        rw [hstep, hvals]
        exact ih (F.set i v) vs j' (by simpa using hj) (by simpa using hjv) hnd'.2
          (by simpa [List.length_set] using hlt)

lemma scatterPairs_getD_mem_const (F : List Vec3) (pairs : List (Nat × Vec3)) (c : Nat)
    (v : Vec3) (hall : ∀ p ∈ pairs, p.2 = v) (hc : c ∈ pairs.map Prod.fst)
    (hlen : c < F.length) :
    (scatterPairs F pairs).getD c 0 = v := by
  induction pairs generalizing F with
  | nil => simp at hc
  | cons p ps ih =>
    by_cases hmem : c ∈ ps.map Prod.fst
    · have := ih (F.set p.1 p.2) (fun q hq => hall q (List.mem_cons_of_mem p hq)) hmem
        (by simpa [List.length_set] using hlen)
      simpa [scatterPairs, List.foldl] using this
    · have hcp : c = p.1 := by
        simp only [List.map, List.mem_cons] at hc
        tauto
      have hnm : (scatterPairs (F.set p.1 p.2) ps).getD c 0 = (F.set p.1 p.2).getD c 0 :=
        scatterPairs_getD_not_mem (F.set p.1 p.2) ps c hmem
      have hv : p.2 = v := hall p (List.mem_cons_self p ps)
      have hstep : scatterPairs F (p :: ps) = scatterPairs (F.set p.1 p.2) ps := rfl
      rw [hcp] at hlen
      rw [hstep, hnm, hcp, getD_set_eq F p.1 p.2 0 hlen]
      exact hv

/-- Flatten a `(n, 3)` array to a flat vector of `3 n` scalars (numpy
`ravel`-order of a row-major array). -/
def flatten3 : List Vec3 → List Scalar
  | [] => []
  | (a, b, c) :: r => a :: b :: c :: flatten3 r

/-- numpy `reshape(flat, (n, 3))` of a flat vector whose length is a multiple
of three: regroup consecutive scalars into rows.  (numpy raises on a length
mismatch; theorems about `apply_prediction` carry the length as a
hypothesis.) -/
def chunk3 : List Scalar → List Vec3
  | a :: b :: c :: r => (a, b, c) :: chunk3 r
  | _ => []

lemma chunk3_flatten3 (l : List Vec3) : chunk3 (flatten3 l) = l := by
  induction l with
  | nil => rfl
  | cons v r ih =>
    obtain ⟨a, b, c⟩ := v
    simp [flatten3, chunk3, ih]

/-! ## `examples/demos/Liver/UNet/Environment/LiverTraining.py` — grid-remapped variant -/

namespace LiverUNet

/-- A SOFA `ConstantForceField` as read by the UNet training script: a list of
surface node indices and the single force vector applied to them
(`force_field.indices.value`, `force_field.force.value`). -/
structure ForceField where
  indices : List Nat
  force : Vec3

/-- The SOFA `RegularGrid` queries the script issues.  The grid itself is
built by the scene description (`LiverSofa.py`), which is not part of the
source base, so the two query functions are carried abstractly in the state:
`cell_index_containing` maps a point to the index of the regular-grid cell
containing it, `node_indices_of` maps a cell index to the list of its corner
node indices. -/
structure RegularGrid where
  cell_index_containing : Vec3 → Nat
  node_indices_of : Nat → List Nat

/-- The slice of the simulation state that `LiverTraining` (UNet variant)
reads and writes.  Fields mirror the attributes set up by the scene
(`LiverSofa`): `data_size` is the row count of the fixed `(n, 3)` data shape,
`nb_nodes_regular_grid` the regular grid's node count,
`idx_sparse_to_regular` the sparse-to-regular index table, and
`regular_grid_rest_shape` the regular grid's rest shape array. -/
structure State where
  data_size : Nat
  nb_nodes_regular_grid : Nat
  create_model_fem : Bool
  f_surface_mo : MechObj
  n_surface_mo : MechObj
  f_sparse_grid_mo : MechObj
  n_sparse_grid_mo : MechObj
  regular_grid : RegularGrid
  force_field : List ForceField
  idx_sparse_to_regular : List Nat
  regular_grid_rest_shape : List Vec3

/-- `surface_mo = self.f_surface_mo if self.create_model['fem'] else self.n_surface_mo`. -/
def surface_mo (s : State) : MechObj :=
  if s.create_model_fem then s.f_surface_mo else s.n_surface_mo

/-- Innermost statement of `compute_input`: for one corner `node` of a cell,
`if node < self.nb_nodes_regular_grid and norm(F[node]) == 0.: F[node] = force`. -/
def encodeNode (nb : Nat) (v : Vec3) (F : List Vec3) (node : Nat) : List Vec3 :=
  if node < nb ∧ normSq (F.getD node 0) = 0 then F.set node v else F

/-- Body of the loop over one forced node `i`: locate the containing cell of
the node's rest position and encode the force at each of its corners. -/
def encodeIndex (s : State) (v : Vec3) (F : List Vec3) (i : Nat) : List Vec3 :=
  (s.regular_grid.node_indices_of
      (s.regular_grid.cell_index_containing ((surface_mo s).rest_position.getD i 0))).foldl
    (encodeNode s.nb_nodes_regular_grid v) F

/-- Loop over the indices of one force field. -/
def encodeField (s : State) (F : List Vec3) (ff : ForceField) : List Vec3 :=
  ff.indices.foldl (encodeIndex s ff.force) F

/-- `LiverTraining.compute_input` (UNet variant): start from
`zeros(self.data_size)` and encode each force field in order. -/
def compute_input (s : State) : List Vec3 :=
  s.force_field.foldl (encodeField s) (List.replicate s.data_size 0)

/-- `LiverTraining.compute_output` (UNet variant): scatter the sparse-grid
positions into the regular-grid slots
(`actual[self.idx_sparse_to_regular] = f_sparse_grid_mo.position`), then
`subtract(actual, self.regular_grid_rest_shape)`. -/
def compute_output (s : State) : List Vec3 :=
  List.zipWith (· - ·)
    (scatterPairs (List.replicate s.data_size 0)
      (s.idx_sparse_to_regular.zip s.f_sparse_grid_mo.position))
    s.regular_grid_rest_shape

/-- `LiverTraining.apply_prediction` (UNet variant): reshape the flat
prediction to the regular grid, select the sparse-grid rows through the index
table (`U[self.idx_sparse_to_regular]`), and write
`n_sparse_grid_mo.rest_position + U_sparse` into the nn model's positions. -/
def apply_prediction (s : State) (prediction : List Scalar) : State :=
  let U := chunk3 prediction
  let U_sparse := s.idx_sparse_to_regular.map (fun k => U.getD k 0)
  { s with n_sparse_grid_mo :=
      { s.n_sparse_grid_mo with
        position := List.zipWith (· + ·) s.n_sparse_grid_mo.rest_position U_sparse } }

/-- The regular-grid corner nodes that forced node `i` maps to: the corners of
the cell containing the node's rest position. -/
def cornersOfIndex (s : State) (i : Nat) : List Nat :=
  s.regular_grid.node_indices_of
    (s.regular_grid.cell_index_containing ((surface_mo s).rest_position.getD i 0))

/-- A force field's encoded region contains corner `c` when some forced node
maps to it. -/
def Covers (s : State) (ff : ForceField) (c : Nat) : Prop :=
  ∃ i ∈ ff.indices, c ∈ cornersOfIndex s i

end LiverUNet

namespace LiverUNet

lemma length_encodeNode (nb : Nat) (v : Vec3) (F : List Vec3) (node : Nat) :
    (encodeNode nb v F node).length = F.length := by
  unfold encodeNode; split <;> simp

lemma length_foldl_encodeNode (nb : Nat) (v : Vec3) (L : List Nat) :
    ∀ F : List Vec3, (L.foldl (encodeNode nb v) F).length = F.length := by
  induction L with
  | nil => intro F; rfl
  | cons node T ih =>
    intro F
    have : (node :: T).foldl (encodeNode nb v) F
        = T.foldl (encodeNode nb v) (encodeNode nb v F node) := rfl
    rw [this, ih, length_encodeNode]

lemma length_encodeIndex (s : State) (v : Vec3) (F : List Vec3) (i : Nat) :
    (encodeIndex s v F i).length = F.length :=
  length_foldl_encodeNode _ _ _ F

lemma length_encodeField (s : State) (ff : ForceField) :
    ∀ F : List Vec3, (encodeField s F ff).length = F.length := by
  show ∀ F, (ff.indices.foldl (encodeIndex s ff.force) F).length = F.length
  induction ff.indices with
  | nil => intro F; rfl
  | cons i T ih =>
    intro F
    have : (i :: T).foldl (encodeIndex s ff.force) F
        = T.foldl (encodeIndex s ff.force) (encodeIndex s ff.force F i) := rfl
    rw [this, ih, length_encodeIndex]

lemma length_compute_input (s : State) : (compute_input s).length = s.data_size := by
  unfold compute_input
  have h : ∀ (ffs : List ForceField) (F : List Vec3),
      (ffs.foldl (encodeField s) F).length = F.length := by
    intro ffs
    induction ffs with
    | nil => intro F; rfl
    | cons ff T ih =>
      intro F
      have : (ff :: T).foldl (encodeField s) F
          = T.foldl (encodeField s) (encodeField s F ff) := rfl
      rw [this, ih, length_encodeField]
  rw [h, List.length_replicate]

lemma encodeNode_getD_ne (nb : Nat) (v : Vec3) (F : List Vec3) (node c : Nat)
    (h : node ≠ c) : (encodeNode nb v F node).getD c 0 = F.getD c 0 := by
  unfold encodeNode
  split
  · exact getD_set_ne F node c v 0 h
  · rfl

lemma encodeNode_getD_not_lt (nb : Nat) (v : Vec3) (F : List Vec3) (node c : Nat)
    (h : ¬ c < nb) : (encodeNode nb v F node).getD c 0 = F.getD c 0 := by
  by_cases hnc : node = c
  · subst hnc
    unfold encodeNode
    rw [if_neg (fun hg => h hg.1)]
  · exact encodeNode_getD_ne nb v F node c hnc

lemma encodeNode_getD_nonzero (nb : Nat) (v : Vec3) (F : List Vec3) (node c : Nat)
    (h : F.getD c 0 ≠ 0) : (encodeNode nb v F node).getD c 0 = F.getD c 0 := by
  by_cases hnc : node = c
  · subst hnc
    unfold encodeNode
    rw [if_neg (fun hg => h ((normSq_eq_zero_iff _).mp hg.2))]
  · exact encodeNode_getD_ne nb v F node c hnc

lemma encodeNode_getD_keep (nb : Nat) (v : Vec3) (F : List Vec3) (node c : Nat)
    (h : F.getD c 0 = v) : (encodeNode nb v F node).getD c 0 = v := by
  by_cases hnc : node = c
  · subst hnc
    unfold encodeNode
    split
    · by_cases hlen : node < F.length
      · exact getD_set_eq F node v 0 hlen
      · rw [getD_eq_default_of_le (F.set node v) node 0
          (by rw [List.length_set]; omega)]
        rw [getD_eq_default_of_le F node 0 (by omega)] at h
        exact h
    · exact h
  · rw [encodeNode_getD_ne nb v F node c hnc]; exact h

lemma encodeNode_getD_inv (nb : Nat) (v : Vec3) (F : List Vec3) (node c : Nat)
    (h : F.getD c 0 = 0 ∨ F.getD c 0 = v) :
    (encodeNode nb v F node).getD c 0 = 0 ∨ (encodeNode nb v F node).getD c 0 = v := by
  by_cases hnc : node = c
  · subst hnc
    unfold encodeNode
    split
    · by_cases hlen : node < F.length
      · right; exact getD_set_eq F node v 0 hlen
      · left
        exact getD_eq_default_of_le (F.set node v) node 0 (by rw [List.length_set]; omega)
    · exact h
  · rw [encodeNode_getD_ne nb v F node c hnc]; exact h

lemma encodeNode_getD_self (nb : Nat) (v : Vec3) (F : List Vec3) (c : Nat)
    (hnb : c < nb) (hlen : c < F.length) (h : F.getD c 0 = 0 ∨ F.getD c 0 = v) :
    (encodeNode nb v F c).getD c 0 = v := by
  by_cases h0 : F.getD c 0 = 0
  · unfold encodeNode
    rw [if_pos ⟨hnb, (normSq_eq_zero_iff _).mpr h0⟩]
    exact getD_set_eq F c v 0 hlen
  · rcases h with h | h
    · exact absurd h h0
    · exact encodeNode_getD_keep nb v F c c h

lemma foldl_encodeNode_keep (nb : Nat) (v : Vec3) (L : List Nat) :
    ∀ (F : List Vec3) (c : Nat), F.getD c 0 = v →
      (L.foldl (encodeNode nb v) F).getD c 0 = v := by
  induction L with
  | nil => intro F c h; exact h
  | cons node T ih =>
    intro F c h
    exact ih (encodeNode nb v F node) c (encodeNode_getD_keep nb v F node c h)

lemma foldl_encodeNode_nonzero (nb : Nat) (v : Vec3) (L : List Nat) :
    ∀ (F : List Vec3) (c : Nat), F.getD c 0 ≠ 0 →
      (L.foldl (encodeNode nb v) F).getD c 0 = F.getD c 0 := by
  induction L with
  | nil => intro F c _; rfl
  | cons node T ih =>
    intro F c h
    have h1 := encodeNode_getD_nonzero nb v F node c h
    have h2 := ih (encodeNode nb v F node) c (by rw [h1]; exact h)
    rw [List.foldl_cons, h2, h1]

lemma foldl_encodeNode_not_mem (nb : Nat) (v : Vec3) (L : List Nat) :
    ∀ (F : List Vec3) (c : Nat), c ∉ L →
      (L.foldl (encodeNode nb v) F).getD c 0 = F.getD c 0 := by
  induction L with
  | nil => intro F c _; rfl
  | cons node T ih =>
    intro F c h
    have hne : node ≠ c := fun he => h (he ▸ List.mem_cons_self node T)
    have h1 := encodeNode_getD_ne nb v F node c hne
    have h2 := ih (encodeNode nb v F node) c (fun hm => h (List.mem_cons_of_mem node hm))
    rw [List.foldl_cons, h2, h1]

lemma foldl_encodeNode_not_lt (nb : Nat) (v : Vec3) (L : List Nat) :
    ∀ (F : List Vec3) (c : Nat), ¬ c < nb →
      (L.foldl (encodeNode nb v) F).getD c 0 = F.getD c 0 := by
  induction L with
  | nil => intro F c _; rfl
  | cons node T ih =>
    intro F c h
    have h1 := encodeNode_getD_not_lt nb v F node c h
    have h2 := ih (encodeNode nb v F node) c h
    rw [List.foldl_cons, h2, h1]

lemma foldl_encodeNode_inv (nb : Nat) (v : Vec3) (L : List Nat) :
    ∀ (F : List Vec3) (c : Nat), (F.getD c 0 = 0 ∨ F.getD c 0 = v) →
      ((L.foldl (encodeNode nb v) F).getD c 0 = 0
        ∨ (L.foldl (encodeNode nb v) F).getD c 0 = v) := by
  induction L with
  | nil => intro F c h; exact h
  | cons node T ih =>
    intro F c h
    exact ih (encodeNode nb v F node) c (encodeNode_getD_inv nb v F node c h)

lemma foldl_encodeNode_writes (nb : Nat) (v : Vec3) (L : List Nat) :
    ∀ (F : List Vec3) (c : Nat), c ∈ L → c < nb → c < F.length →
      (F.getD c 0 = 0 ∨ F.getD c 0 = v) →
      (L.foldl (encodeNode nb v) F).getD c 0 = v := by
  induction L with
  | nil => intro F c hm; simp at hm
  | cons node T ih =>
    intro F c hm hnb hlen hinv
    by_cases hnc : node = c
    · subst hnc
      have hv : (encodeNode nb v F node).getD node 0 = v :=
        encodeNode_getD_self nb v F node hnb hlen hinv
      exact foldl_encodeNode_keep nb v T (encodeNode nb v F node) node hv
    · have hmT : c ∈ T := by
        rcases List.mem_cons.mp hm with h | h
        · exact absurd h.symm hnc
        · exact h
      have h1 := encodeNode_getD_ne nb v F node c hnc
      exact ih (encodeNode nb v F node) c hmT hnb
        (by rw [length_encodeNode]; exact hlen) (by rw [h1]; exact hinv)

end LiverUNet

namespace LiverUNet

lemma encodeIndex_eq_foldl (s : State) (v : Vec3) (F : List Vec3) (i : Nat) :
    encodeIndex s v F i = (cornersOfIndex s i).foldl (encodeNode s.nb_nodes_regular_grid v) F :=
  rfl

lemma encodeField_getD_nonzero (s : State) (ff : ForceField) :
    ∀ (F : List Vec3) (c : Nat), F.getD c 0 ≠ 0 →
      (encodeField s F ff).getD c 0 = F.getD c 0 := by
  show ∀ F c, _ → (ff.indices.foldl (encodeIndex s ff.force) F).getD c 0 = F.getD c 0
  induction ff.indices with
  | nil => intro F c _; rfl
  | cons i T ih =>
    intro F c h
    have h1 : (encodeIndex s ff.force F i).getD c 0 = F.getD c 0 :=
      foldl_encodeNode_nonzero _ _ _ F c h
    have h2 := ih (encodeIndex s ff.force F i) c (by rw [h1]; exact h)
    rw [List.foldl_cons, h2, h1]

lemma encodeField_keep (s : State) (ff : ForceField) :
    ∀ (F : List Vec3) (c : Nat), F.getD c 0 = ff.force →
      (encodeField s F ff).getD c 0 = ff.force := by
  show ∀ F c, _ → (ff.indices.foldl (encodeIndex s ff.force) F).getD c 0 = ff.force
  induction ff.indices with
  | nil => intro F c h; exact h
  | cons i T ih =>
    intro F c h
    exact ih (encodeIndex s ff.force F i) c (foldl_encodeNode_keep _ _ _ F c h)

lemma foldl_encodeIndex_inv (s : State) (v : Vec3) (is : List Nat) :
    ∀ (F : List Vec3) (c : Nat), (F.getD c 0 = 0 ∨ F.getD c 0 = v) →
      ((is.foldl (encodeIndex s v) F).getD c 0 = 0
        ∨ (is.foldl (encodeIndex s v) F).getD c 0 = v) := by
  induction is with
  | nil => intro F c h; exact h
  | cons i T ih =>
    intro F c h
    exact ih (encodeIndex s v F i) c (foldl_encodeNode_inv _ _ _ F c h)

lemma encodeField_inv (s : State) (ff : ForceField) (F : List Vec3) (c : Nat)
    (h : F.getD c 0 = 0 ∨ F.getD c 0 = ff.force) :
    ((encodeField s F ff).getD c 0 = 0 ∨ (encodeField s F ff).getD c 0 = ff.force) :=
  foldl_encodeIndex_inv s ff.force ff.indices F c h

lemma length_foldl_encodeIndex (s : State) (v : Vec3) (L : List Nat) :
    ∀ F : List Vec3, (L.foldl (encodeIndex s v) F).length = F.length := by
  induction L with
  | nil => intro F; rfl
  | cons i T ih =>
    intro F
    rw [List.foldl_cons, ih, length_encodeIndex]

/-- If a force field covers corner `c` (some forced node maps to it), the
corner lies in the valid node range and slot range, and its current entry is
either still zero or already the field's force, then after encoding the field
the entry is exactly the field's force. -/
lemma foldl_encodeIndex_writes (s : State) (v : Vec3) (is : List Nat) :
    ∀ (F : List Vec3) (c : Nat), c < s.nb_nodes_regular_grid → c < F.length →
      (F.getD c 0 = 0 ∨ F.getD c 0 = v) →
      (∃ i ∈ is, c ∈ cornersOfIndex s i) →
      (is.foldl (encodeIndex s v) F).getD c 0 = v := by
  induction is with
  | nil =>
    intro F c _ _ _ hcov
    obtain ⟨i, hi, _⟩ := hcov
    simp at hi
  | cons i T ih =>
    intro F c hnb hlen hinv hcov
    rw [List.foldl_cons]
    by_cases hc : c ∈ cornersOfIndex s i
    · have hw : (encodeIndex s v F i).getD c 0 = v := by
        rw [encodeIndex_eq_foldl]
        exact foldl_encodeNode_writes _ _ _ F c hc hnb hlen hinv
      have hkeep : ∀ (L : List Nat) (G : List Vec3), G.getD c 0 = v →
          (L.foldl (encodeIndex s v) G).getD c 0 = v := by
        intro L
        induction L with
        | nil => intro G h; exact h
        | cons j U ihL =>
          intro G h
          exact ihL (encodeIndex s v G j) (foldl_encodeNode_keep _ _ _ G c h)
      exact hkeep T (encodeIndex s v F i) hw
    · have h1 : (encodeIndex s v F i).getD c 0 = F.getD c 0 := by
        rw [encodeIndex_eq_foldl]
        exact foldl_encodeNode_not_mem _ _ _ F c hc
      have hcov' : ∃ i' ∈ T, c ∈ cornersOfIndex s i' := by
        obtain ⟨i', hi', hci'⟩ := hcov
        rcases List.mem_cons.mp hi' with h | h
        · exact absurd (h ▸ hci') hc
        · exact ⟨i', h, hci'⟩
      exact ih (encodeIndex s v F i) c hnb
        (by rw [length_encodeIndex]; exact hlen) (by rw [h1]; exact hinv) hcov'

lemma encodeField_writes (s : State) (ff : ForceField) (F : List Vec3) (c : Nat)
    (hnb : c < s.nb_nodes_regular_grid) (hlen : c < F.length)
    (hinv : F.getD c 0 = 0 ∨ F.getD c 0 = ff.force)
    (hcov : ∃ i ∈ ff.indices, c ∈ cornersOfIndex s i) :
    (encodeField s F ff).getD c 0 = ff.force :=
  foldl_encodeIndex_writes s ff.force ff.indices F c hnb hlen hinv hcov

/-- Processing any further force fields never changes a slot that already
holds a value of nonzero magnitude. -/
lemma foldl_encodeField_nonzero (s : State) (ffs : List ForceField) :
    ∀ (F : List Vec3) (c : Nat), F.getD c 0 ≠ 0 →
      (ffs.foldl (encodeField s) F).getD c 0 = F.getD c 0 := by
  induction ffs with
  | nil => intro F c _; rfl
  | cons ff T ih =>
    intro F c h
    have h1 : (encodeField s F ff).getD c 0 = F.getD c 0 :=
      encodeField_getD_nonzero s ff F c h
    have h2 := ih (encodeField s F ff) c (by rw [h1]; exact h)
    rw [List.foldl_cons, h2, h1]

end LiverUNet

namespace LiverUNet

/-- C1 (amended): in the grid-remapped `compute_input`, with two force fields
whose regions share a valid regular-grid corner node, the corner's final value
is the first field's force value provided that force is nonzero; and a corner
already holding a value of nonzero magnitude is never overwritten by any later
force fields, whatever they write elsewhere. -/
theorem C1_first_writer_wins (s : State) (f1 f2 : ForceField)
    (hff : s.force_field = [f1, f2])
    (c : Nat) (hnb : c < s.nb_nodes_regular_grid)
    (hsize : s.nb_nodes_regular_grid ≤ s.data_size)
    (hcov1 : Covers s f1 c) (hcov2 : Covers s f2 c)
    (hnz : f1.force ≠ 0) :
    (compute_input s).getD c 0 = f1.force ∧
    ∀ (ffs : List ForceField) (F : List Vec3), F.getD c 0 ≠ 0 →
      (ffs.foldl (encodeField s) F).getD c 0 = F.getD c 0 := by
  constructor
  · have hF0len : c < (List.replicate s.data_size (0 : Vec3)).length := by
      rw [List.length_replicate]; omega
    have h1 : (encodeField s (List.replicate s.data_size 0) f1).getD c 0 = f1.force :=
      encodeField_writes s f1 _ c hnb hF0len (Or.inl (getD_replicate_self _ _ _)) hcov1
    have h2 : (encodeField s (encodeField s (List.replicate s.data_size 0) f1) f2).getD c 0
        = f1.force := by
      rw [encodeField_getD_nonzero s f2 _ c (by rw [h1]; exact hnz), h1]
    unfold compute_input
    rw [hff]
    have hfold : List.foldl (encodeField s) (List.replicate s.data_size 0) [f1, f2]
        = encodeField s (encodeField s (List.replicate s.data_size 0) f1) f2 := rfl
    rw [hfold]
    exact h2
  · exact fun ffs F h => foldl_encodeField_nonzero s ffs F c h

/-- Concrete grid in which every point falls in cell 0 and every cell has the
single corner node 0: the smallest configuration in which two force fields
overlap. -/
def exGrid : RegularGrid where
  cell_index_containing := fun _ => 0
  node_indices_of := fun _ => [0]

def exMech : MechObj where
  position := [(0, 0, 0)]
  rest_position := [(0, 0, 0)]

/-- First force field of the counterexample: a genuinely zero force. -/
def exF1 : ForceField where
  indices := [0]
  force := (0, 0, 0)

def exF2 : ForceField where
  indices := [0]
  force := (0, -1, 0)

def exStateC1 : State where
  data_size := 1
  nb_nodes_regular_grid := 1
  create_model_fem := true
  f_surface_mo := exMech
  n_surface_mo := exMech
  f_sparse_grid_mo := exMech
  n_sparse_grid_mo := exMech
  regular_grid := exGrid
  force_field := [exF1, exF2]
  idx_sparse_to_regular := [0]
  regular_grid_rest_shape := [(0, 0, 0)]

/-- C1 (counterexample to the claim as stated): two force fields share corner
node 0, yet the returned value at that corner is the second field's force, not
the first's — the zero-magnitude test cannot distinguish the first field's
genuinely zero force from an unset slot, so the second field overwrites it. -/
theorem C1_counterexample :
    exStateC1.force_field = [exF1, exF2]
    ∧ Covers exStateC1 exF1 0 ∧ Covers exStateC1 exF2 0
    ∧ 0 < exStateC1.nb_nodes_regular_grid
    ∧ (compute_input exStateC1).getD 0 0 = exF2.force
    ∧ (compute_input exStateC1).getD 0 0 ≠ exF1.force := by
  refine ⟨rfl, ⟨0, by simp [exF1], by simp [cornersOfIndex, exStateC1, exGrid]⟩,
    ⟨0, by simp [exF2], by simp [cornersOfIndex, exStateC1, exGrid]⟩, by decide, ?_, ?_⟩ <;>
    simp [compute_input, exStateC1, encodeField, encodeIndex, encodeNode, exF1, exF2,
      exGrid, exMech, surface_mo, normSq, Prod.ext_iff]

/-- First force field of the witness configuration: a nonzero force. -/
def exF1w : ForceField where
  indices := [0]
  force := (1, 0, 0)

def exStateC1w : State where
  data_size := 1
  nb_nodes_regular_grid := 1
  create_model_fem := true
  f_surface_mo := exMech
  n_surface_mo := exMech
  f_sparse_grid_mo := exMech
  n_sparse_grid_mo := exMech
  regular_grid := exGrid
  force_field := [exF1w, exF2]
  idx_sparse_to_regular := [0]
  regular_grid_rest_shape := [(0, 0, 0)]

theorem C1_first_writer_wins_witness :
    exF1w.force ≠ 0 ∧ (compute_input exStateC1w).getD 0 0 = exF1w.force := by
  constructor
  · simp [exF1w, Prod.ext_iff]
  · exact (C1_first_writer_wins exStateC1w exF1w exF2 rfl 0 (by decide) (by decide)
      ⟨0, by simp [exF1w], by simp [cornersOfIndex, exStateC1w, exGrid]⟩
      ⟨0, by simp [exF2], by simp [cornersOfIndex, exStateC1w, exGrid]⟩
      (by simp [exF1w, Prod.ext_iff])).1

/-- C6: grid-remapped single-force scenario — with exactly one force field of
force `(0, -1, 0)` whose index list names the single surface node `j`, the
input array is `(0, -1, 0)` exactly at the corner nodes of the regular-grid
cell containing `j`'s rest position that lie strictly below the grid's node
count, and zero everywhere else (corners at or above the node count receive
nothing). -/
theorem C6_single_force_scenario (s : State) (f : ForceField) (j : Nat)
    (hff : s.force_field = [f]) (hforce : f.force = (0, -1, 0))
    (hidx : f.indices = [j])
    (hsize : s.nb_nodes_regular_grid ≤ s.data_size) :
    ∀ c : Nat,
      ((c ∈ cornersOfIndex s j ∧ c < s.nb_nodes_regular_grid) →
        (compute_input s).getD c 0 = (0, -1, 0)) ∧
      (¬(c ∈ cornersOfIndex s j ∧ c < s.nb_nodes_regular_grid) →
        (compute_input s).getD c 0 = 0) := by
  intro c
  have hrepl : (List.replicate s.data_size (0 : Vec3)).getD c 0 = 0 :=
    getD_replicate_self _ _ _
  have hci : compute_input s = encodeIndex s f.force (List.replicate s.data_size 0) j := by
    unfold compute_input
    rw [hff]
    have h1 : List.foldl (encodeField s) (List.replicate s.data_size 0) [f]
        = encodeField s (List.replicate s.data_size 0) f := rfl
    rw [h1]
    unfold encodeField
    rw [hidx]
    rfl
  constructor
  · rintro ⟨hc, hnb⟩
    rw [hci, encodeIndex_eq_foldl, ← hforce]
    exact foldl_encodeNode_writes _ _ _ _ c hc hnb
      (by rw [List.length_replicate]; omega) (Or.inl hrepl)
  · intro hn
    rw [hci, encodeIndex_eq_foldl]
    by_cases hnb : c < s.nb_nodes_regular_grid
    · have hcm : c ∉ cornersOfIndex s j := fun hc => hn ⟨hc, hnb⟩
      rw [foldl_encodeNode_not_mem _ _ _ _ c hcm]
      exact hrepl
    · rw [foldl_encodeNode_not_lt _ _ _ _ c hnb]
      exact hrepl

/-- Grid for the C6 witness: the containing cell of any point has corner nodes
0, 2 and 5; nodes 2 and 5 are at or above the node count 2. -/
def exGridC6 : RegularGrid where
  cell_index_containing := fun _ => 7
  node_indices_of := fun _ => [0, 2, 5]

def exMechC6 : MechObj where
  position := [(0, 0, 0), (1, 0, 0)]
  rest_position := [(0, 0, 0), (1, 0, 0)]

def exFC6 : ForceField where
  indices := [1]
  force := (0, -1, 0)

def exStateC6 : State where
  data_size := 3
  nb_nodes_regular_grid := 2
  create_model_fem := true
  f_surface_mo := exMechC6
  n_surface_mo := exMechC6
  f_sparse_grid_mo := exMechC6
  n_sparse_grid_mo := exMechC6
  regular_grid := exGridC6
  force_field := [exFC6]
  idx_sparse_to_regular := [0, 1]
  regular_grid_rest_shape := [(0, 0, 0), (0, 0, 0), (0, 0, 0)]

theorem C6_single_force_scenario_witness :
    (0 ∈ cornersOfIndex exStateC6 1 ∧ 0 < exStateC6.nb_nodes_regular_grid)
    ∧ (compute_input exStateC6).getD 0 0 = (0, -1, 0)
    ∧ (compute_input exStateC6).getD 1 0 = 0
    ∧ (compute_input exStateC6).getD 2 0 = 0 := by
  have h := C6_single_force_scenario exStateC6 exFC6 1 rfl rfl rfl (by decide)
  refine ⟨⟨by decide, by decide⟩, ?_, ?_, ?_⟩
  · exact (h 0).1 ⟨by decide, by decide⟩
  · exact (h 1).2 (by decide)
  · exact (h 2).2 (by decide)

end LiverUNet

namespace LiverUNet

lemma length_scatter_replicate (s : State) :
    (scatterPairs (List.replicate s.data_size 0)
      (s.idx_sparse_to_regular.zip s.f_sparse_grid_mo.position)).length = s.data_size := by
  rw [length_scatterPairs, List.length_replicate]

/-- Value of the grid-remapped `compute_output` at a mapped slot: the
sparse-grid position written there minus the regular rest shape entry. -/
lemma compute_output_getD_mapped (s : State) (j : Nat)
    (hnd : s.idx_sparse_to_regular.Nodup)
    (hj : j < s.idx_sparse_to_regular.length)
    (hjp : j < s.f_sparse_grid_mo.position.length)
    (hlt : s.idx_sparse_to_regular.getD j 0 < s.data_size)
    (hreg : s.regular_grid_rest_shape.length = s.data_size) :
    (compute_output s).getD (s.idx_sparse_to_regular.getD j 0) 0
      = s.f_sparse_grid_mo.position.getD j 0
        - s.regular_grid_rest_shape.getD (s.idx_sparse_to_regular.getD j 0) 0 := by
  unfold compute_output
  rw [getD_zipWith _ _ _ _ _ (by rw [length_scatter_replicate]; exact hlt)
    (by rw [hreg]; exact hlt)]
  rw [scatterPairs_getD_nodup _ _ _ j hj hjp hnd
    (by rw [List.length_replicate]; exact hlt)]

/-- Value of the grid-remapped `compute_output` at an unmapped slot: the
scatter leaves the zero initial value, so the subtraction yields the negated
rest-shape entry. -/
lemma compute_output_getD_unmapped (s : State) (n : Nat)
    (hn : n < s.data_size)
    (hreg : s.regular_grid_rest_shape.length = s.data_size)
    (hnot : n ∉ s.idx_sparse_to_regular) :
    (compute_output s).getD n 0 = -(s.regular_grid_rest_shape.getD n 0) := by
  unfold compute_output
  rw [getD_zipWith _ _ _ _ _ (by rw [length_scatter_replicate]; exact hn)
    (by rw [hreg]; exact hn)]
  rw [scatterPairs_getD_not_mem _ _ _
    (fun hm => hnot (mem_map_fst_zip _ _ _ hm))]
  rw [getD_replicate_self, zero_sub]

/-- C9: at every regular-grid slot that is not the image of any sparse-grid
node under the index table, the grid-remapped `compute_output` returns zero
minus the regular grid's rest-shape entry — which is nonzero whenever that
rest-shape entry is, so unmapped slots do not encode a zero displacement. -/
theorem C9_unmapped_slots (s : State) (n : Nat)
    (hn : n < s.data_size)
    (hreg : s.regular_grid_rest_shape.length = s.data_size)
    (hnot : n ∉ s.idx_sparse_to_regular) :
    (compute_output s).getD n 0 = -(s.regular_grid_rest_shape.getD n 0)
    ∧ (s.regular_grid_rest_shape.getD n 0 ≠ 0 → (compute_output s).getD n 0 ≠ 0) := by
  have h := compute_output_getD_unmapped s n hn hreg hnot
  exact ⟨h, fun hz => by rw [h]; exact neg_ne_zero.mpr hz⟩

def exMechC9 : MechObj where
  position := [(2, 0, 0)]
  rest_position := [(2, 0, 0)]

def exStateC9 : State where
  data_size := 2
  nb_nodes_regular_grid := 2
  create_model_fem := true
  f_surface_mo := exMechC9
  n_surface_mo := exMechC9
  f_sparse_grid_mo := exMechC9
  n_sparse_grid_mo := exMechC9
  regular_grid := exGrid
  force_field := []
  idx_sparse_to_regular := [0]
  regular_grid_rest_shape := [(2, 0, 0), (3, 0, 0)]

theorem C9_unmapped_slots_witness :
    (1 ∉ exStateC9.idx_sparse_to_regular)
    ∧ (compute_output exStateC9).getD 1 0 = -((3 : Scalar), (0 : Scalar), (0 : Scalar))
    ∧ (compute_output exStateC9).getD 1 0 ≠ 0 := by
  have h := C9_unmapped_slots exStateC9 1 (by decide) (by decide) (by decide)
  refine ⟨by decide, h.1, h.2 ?_⟩
  simp [exStateC9, Prod.ext_iff]

/-- C3: grid round-trip — feeding the grid-remapped `compute_output` back
through `apply_prediction` as the identity prediction makes the nn model's
position at each sparse node its rest position plus the fem model's
displacement at that node, provided the index table is duplicate-free and the
regular rest shape holds the sparse rest positions at mapped slots. -/
theorem C3_grid_round_trip (s : State) (j : Nat)
    (hnd : s.idx_sparse_to_regular.Nodup)
    (hj : j < s.idx_sparse_to_regular.length)
    (hjp : j < s.f_sparse_grid_mo.position.length)
    (hjn : j < s.n_sparse_grid_mo.rest_position.length)
    (hlt : s.idx_sparse_to_regular.getD j 0 < s.data_size)
    (hreg : s.regular_grid_rest_shape.length = s.data_size)
    (hrest : s.regular_grid_rest_shape.getD (s.idx_sparse_to_regular.getD j 0) 0
      = s.f_sparse_grid_mo.rest_position.getD j 0) :
    ((apply_prediction s (flatten3 (compute_output s))).n_sparse_grid_mo.position).getD j 0
      = s.n_sparse_grid_mo.rest_position.getD j 0
        + (s.f_sparse_grid_mo.position.getD j 0
            - s.f_sparse_grid_mo.rest_position.getD j 0) := by
  have hout : (compute_output s).getD (s.idx_sparse_to_regular.getD j 0) 0
      = s.f_sparse_grid_mo.position.getD j 0
        - s.f_sparse_grid_mo.rest_position.getD j 0 := by
    rw [compute_output_getD_mapped s j hnd hj hjp hlt hreg, hrest]
  show (List.zipWith (· + ·) s.n_sparse_grid_mo.rest_position
      (s.idx_sparse_to_regular.map
        (fun k => (chunk3 (flatten3 (compute_output s))).getD k 0))).getD j 0 = _
  rw [chunk3_flatten3]
  rw [getD_zipWith _ _ _ _ _ hjn (by rw [List.length_map]; exact hj)]
  rw [getD_map_of_lt _ _ _ 0 _ hj, hout]

def exMechC3f : MechObj where
  position := [(2, 1, 0)]
  rest_position := [(1, 1, 0)]

def exMechC3n : MechObj where
  position := [(0, 0, 0)]
  rest_position := [(5, 0, 0)]

def exStateC3 : State where
  data_size := 2
  nb_nodes_regular_grid := 2
  create_model_fem := true
  f_surface_mo := exMechC3f
  n_surface_mo := exMechC3n
  f_sparse_grid_mo := exMechC3f
  n_sparse_grid_mo := exMechC3n
  regular_grid := exGrid
  force_field := []
  idx_sparse_to_regular := [1]
  regular_grid_rest_shape := [(0, 0, 0), (1, 1, 0)]

theorem C3_grid_round_trip_witness :
    ((apply_prediction exStateC3
        (flatten3 (compute_output exStateC3))).n_sparse_grid_mo.position).getD 0 0
      = exStateC3.n_sparse_grid_mo.rest_position.getD 0 0
        + (exStateC3.f_sparse_grid_mo.position.getD 0 0
            - exStateC3.f_sparse_grid_mo.rest_position.getD 0 0) := by
  exact C3_grid_round_trip exStateC3 0 (by decide) (by decide) (by decide) (by decide)
    (by decide) (by decide) (by simp [exStateC3, exMechC3f, Prod.ext_iff])

end LiverUNet

namespace LiverUNet

/-- Modelled from the spec: the grid-remapped `compute_output` as the claim
words it — "scattering the high-resolution displacement into the regular-grid
node slots selected by the precomputed sparse-to-regular index table and then
subtracting the regular grid's own rest shape".  The source instead scatters
the high-resolution *current positions* before subtracting; this definition
exists only to compare that wording against `compute_output`. -/
def compute_output_claimed (s : State) : List Vec3 :=
  List.zipWith (· - ·)
    (scatterPairs (List.replicate s.data_size 0)
      (s.idx_sparse_to_regular.zip
        (List.zipWith (· - ·) s.f_sparse_grid_mo.position
          s.f_sparse_grid_mo.rest_position)))
    s.regular_grid_rest_shape

def exStateC2 : State where
  data_size := 1
  nb_nodes_regular_grid := 1
  create_model_fem := true
  f_surface_mo := exMechC3f
  n_surface_mo := exMechC3f
  f_sparse_grid_mo :=
    { position := [(1, 1, 0)], rest_position := [(1, 1, 0)] }
  n_sparse_grid_mo := exMechC3f
  regular_grid := exGrid
  force_field := []
  idx_sparse_to_regular := [0]
  regular_grid_rest_shape := [(1, 1, 0)]

/-- C2 (counterexample to the claim as stated): on an undeformed state whose
regular rest shape holds the sparse rest position at the mapped slot, the
source's `compute_output` correctly reports a zero displacement, while the
claimed mechanism — scatter the *displacement*, then subtract the rest shape —
does not; the two disagree, so `compute_output` does not compute what the
claim describes. -/
theorem C2_counterexample :
    (compute_output exStateC2).getD 0 0 = 0
    ∧ (compute_output_claimed exStateC2).getD 0 0 = -((1 : Scalar), (1 : Scalar), (0 : Scalar))
    ∧ compute_output exStateC2 ≠ compute_output_claimed exStateC2 := by
  refine ⟨?_, ?_, ?_⟩ <;>
    simp [compute_output, compute_output_claimed, exStateC2, scatterPairs,
      Prod.ext_iff, List.set]

end LiverUNet

/-! ## `examples/demos/Liver/FC/Environment/LiverTraining.py` — coincident representations -/

namespace LiverFC

/-- A SOFA `ConstantForceField` as read by the FC training script: node
indices and the per-node forces array (`cff.indices.value`,
`cff.forces.value`). -/
structure ForceField where
  indices : List Nat
  forces : List Vec3

/-- The slice of the simulation state the FC variant reads and writes.
`input_size` and `output_size` are the row counts of the `(n, 3)` shapes fixed
by `onSimulationInitDoneEvent`. -/
structure State where
  input_size : Nat
  output_size : Nat
  n_surface_mo : MechObj
  f_sparse_grid_mo : MechObj
  n_sparse_grid_mo : MechObj
  force_field : List ForceField

/-- `onSimulationInitDoneEvent`: record the data shapes from the nn model's
node collections. -/
def onSimulationInitDoneEvent (s : State) : State :=
  { s with
    input_size := s.n_surface_mo.position.length
    output_size := s.n_sparse_grid_mo.position.length }

/-- `LiverTraining.compute_input` (FC variant): `F = zeros(self.input_size)`
then `F[cff.indices.value] = cff.forces.value` for each force field. -/
def compute_input (s : State) : List Vec3 :=
  s.force_field.foldl (fun F cff => scatterPairs F (cff.indices.zip cff.forces))
    (List.replicate s.input_size 0)

/-- `LiverTraining.compute_output` (FC variant): the direct displacement
`f_sparse_grid_mo.position - f_sparse_grid_mo.rest_position`. -/
def compute_output (s : State) : List Vec3 :=
  List.zipWith (· - ·) s.f_sparse_grid_mo.position s.f_sparse_grid_mo.rest_position

/-- `LiverTraining.apply_prediction` (FC variant): reshape the flat prediction
to the sparse grid and write `rest_position + U` into the nn model's
positions. -/
def apply_prediction (s : State) (prediction : List Scalar) : State :=
  let U := chunk3 prediction
  { s with n_sparse_grid_mo :=
      { s.n_sparse_grid_mo with
        position := List.zipWith (· + ·) s.n_sparse_grid_mo.rest_position U } }

lemma length_compute_input_fc (s : State) : (compute_input s).length = s.input_size := by
  unfold compute_input
  have h : ∀ (ffs : List ForceField) (F : List Vec3),
      (ffs.foldl (fun F cff => scatterPairs F (cff.indices.zip cff.forces)) F).length
        = F.length := by
    intro ffs
    induction ffs with
    | nil => intro F; rfl
    | cons ff T ih =>
      intro F
      rw [List.foldl_cons, ih, length_scatterPairs]
  rw [h, List.length_replicate]

lemma compute_output_getD (s : State) (i : Nat)
    (h₁ : i < s.f_sparse_grid_mo.position.length)
    (h₂ : i < s.f_sparse_grid_mo.rest_position.length) :
    (compute_output s).getD i 0
      = s.f_sparse_grid_mo.position.getD i 0
        - s.f_sparse_grid_mo.rest_position.getD i 0 := by
  unfold compute_output
  exact getD_zipWith _ _ _ _ _ h₁ h₂

end LiverFC

lemma mem_map_fst_zip_of_mem {α β : Type} (l₁ : List α) (l₂ : List β) (c : α)
    (hmem : c ∈ l₁) (hlen : l₁.length ≤ l₂.length) :
    c ∈ (l₁.zip l₂).map Prod.fst := by
  induction l₁ generalizing l₂ with
  | nil => simp at hmem
  | cons a as ih =>
    cases l₂ with
    | nil => simp at hlen
    | cons b bs =>
      rcases List.mem_cons.mp hmem with h | h
      · simp [h]
      · exact List.mem_cons_of_mem _ (ih bs h (by simpa using hlen))

namespace LiverFC

/-- C10: in the coincident-representation `compute_input`, when two force
fields both list a node index, the later field's per-node force value wins —
numpy fancy-index assignment simply overwrites, the opposite tie-break of the
grid-remapped variant. -/
theorem C10_last_writer_wins (s : State) (f1 f2 : ForceField)
    (hff : s.force_field = [f1, f2]) (i : Nat) (hi : i < s.input_size)
    (h1 : i ∈ f1.indices) (h2 : i ∈ f2.indices) (v : Vec3)
    (hv : f2.forces = List.replicate f2.indices.length v) :
    (compute_input s).getD i 0 = v := by
  unfold compute_input
  rw [hff]
  have hfold : List.foldl (fun F cff => scatterPairs F (cff.indices.zip cff.forces))
      (List.replicate s.input_size 0) [f1, f2]
      = scatterPairs
          (scatterPairs (List.replicate s.input_size 0) (f1.indices.zip f1.forces))
          (f2.indices.zip f2.forces) := rfl
  rw [hfold]
  refine scatterPairs_getD_mem_const _ _ i v ?_ ?_ ?_
  · intro p hp
    have := (List.of_mem_zip hp).2
    rw [hv] at this
    exact List.eq_of_mem_replicate this
  · exact mem_map_fst_zip_of_mem _ _ i h2 (by rw [hv, List.length_replicate])
  · rw [length_scatterPairs, List.length_replicate]
    exact hi

def exMechC10 : MechObj where
  position := [(0, 0, 0), (0, 0, 0)]
  rest_position := [(0, 0, 0), (0, 0, 0)]

def exFC10a : ForceField where
  indices := [0, 1]
  forces := [(1, 0, 0), (1, 0, 0)]

def exFC10b : ForceField where
  indices := [1]
  forces := [(0, -1, 0)]

def exStateC10 : State where
  input_size := 2
  output_size := 2
  n_surface_mo := exMechC10
  f_sparse_grid_mo := exMechC10
  n_sparse_grid_mo := exMechC10
  force_field := [exFC10a, exFC10b]

theorem C10_last_writer_wins_witness :
    (1 ∈ exFC10a.indices ∧ 1 ∈ exFC10b.indices)
    ∧ (compute_input exStateC10).getD 1 0 = (0, -1, 0) := by
  refine ⟨⟨by decide, by decide⟩, ?_⟩
  exact C10_last_writer_wins exStateC10 exFC10a exFC10b rfl 1 (by decide)
    (by decide) (by decide) (0, -1, 0) rfl

end LiverFC

/-- C2 (amended): `compute_output` returns the displacement
`current_position − rest_position` directly when the representations
coincide; under the grid remap it scatters the high-resolution *current
positions* into the regular-grid slots selected by the index table and then
subtracts the regular grid's own rest shape — which equals the
high-resolution displacement at a mapped slot whenever the table is
duplicate-free and the rest shape holds the sparse rest position there. -/
theorem C2_output_displacement :
    (∀ (t : LiverFC.State) (i : Nat),
      i < t.f_sparse_grid_mo.position.length →
      i < t.f_sparse_grid_mo.rest_position.length →
      (LiverFC.compute_output t).getD i 0
        = t.f_sparse_grid_mo.position.getD i 0
          - t.f_sparse_grid_mo.rest_position.getD i 0)
    ∧ (∀ (s : LiverUNet.State) (j : Nat),
      s.idx_sparse_to_regular.Nodup →
      j < s.idx_sparse_to_regular.length →
      j < s.f_sparse_grid_mo.position.length →
      s.idx_sparse_to_regular.getD j 0 < s.data_size →
      s.regular_grid_rest_shape.length = s.data_size →
      s.regular_grid_rest_shape.getD (s.idx_sparse_to_regular.getD j 0) 0
        = s.f_sparse_grid_mo.rest_position.getD j 0 →
      (LiverUNet.compute_output s).getD (s.idx_sparse_to_regular.getD j 0) 0
        = s.f_sparse_grid_mo.position.getD j 0
          - s.f_sparse_grid_mo.rest_position.getD j 0) := by
  constructor
  · exact fun t i h₁ h₂ => LiverFC.compute_output_getD t i h₁ h₂
  · intro s j hnd hj hjp hlt hreg hrest
    rw [LiverUNet.compute_output_getD_mapped s j hnd hj hjp hlt hreg, hrest]

def exStateC2w : LiverUNet.State where
  data_size := 2
  nb_nodes_regular_grid := 2
  create_model_fem := true
  f_surface_mo := LiverUNet.exMechC3f
  n_surface_mo := LiverUNet.exMechC3f
  f_sparse_grid_mo := { position := [(1, 1, 0)], rest_position := [(0, 1, 0)] }
  n_sparse_grid_mo := LiverUNet.exMechC3f
  regular_grid := LiverUNet.exGrid
  force_field := []
  idx_sparse_to_regular := [1]
  regular_grid_rest_shape := [(0, 0, 0), (0, 1, 0)]

theorem C2_output_displacement_witness :
    (LiverFC.compute_output LiverFC.exStateC10).getD 0 0 = 0
    ∧ (LiverUNet.compute_output exStateC2w).getD 1 0 = ((1 : Scalar), (0 : Scalar), (0 : Scalar)) := by
  constructor
  · have h := C2_output_displacement.1 LiverFC.exStateC10 0 (by decide) (by decide)
    rw [h]
    simp [LiverFC.exStateC10, LiverFC.exMechC10]
  · have h := C2_output_displacement.2 exStateC2w 0 (by decide) (by decide) (by decide)
      (by decide) (by decide) (by simp [exStateC2w, Prod.ext_iff])
    have hidx : exStateC2w.idx_sparse_to_regular.getD 0 0 = 1 := rfl
    rw [hidx] at h
    rw [h]
    simp [exStateC2w, Prod.ext_iff]

namespace LiverUNet

lemma length_compute_output_unet (s : State)
    (hreg : s.regular_grid_rest_shape.length = s.data_size) :
    (compute_output s).length = s.data_size := by
  unfold compute_output
  rw [length_zipWith, length_scatter_replicate, hreg, Nat.min_self]

end LiverUNet

/-- C4: for every step within a session — any state whose node counts still
match those recorded by `onSimulationInitDoneEvent` — `compute_input` and
`compute_output` return arrays whose row count equals the one fixed at
initialization, in both the coincident (FC) and the grid-remapped (UNet)
variants. -/
theorem C4_shape_invariance :
    (∀ (s0 s : LiverFC.State),
      s.input_size = (LiverFC.onSimulationInitDoneEvent s0).input_size →
      s.output_size = (LiverFC.onSimulationInitDoneEvent s0).output_size →
      s.f_sparse_grid_mo.position.length = s.output_size →
      s.f_sparse_grid_mo.rest_position.length = s.output_size →
      (LiverFC.compute_input s).length
          = (LiverFC.onSimulationInitDoneEvent s0).input_size
        ∧ (LiverFC.compute_output s).length
          = (LiverFC.onSimulationInitDoneEvent s0).output_size)
    ∧ (∀ s : LiverUNet.State,
      s.regular_grid_rest_shape.length = s.data_size →
      (LiverUNet.compute_input s).length = s.data_size
        ∧ (LiverUNet.compute_output s).length = s.data_size) := by
  constructor
  · intro s0 s hin hout hpos hrest
    constructor
    · rw [LiverFC.length_compute_input_fc, hin]
    · unfold LiverFC.compute_output
      rw [length_zipWith, hpos, hrest, Nat.min_self, hout]
  · intro s hreg
    exact ⟨LiverUNet.length_compute_input s, LiverUNet.length_compute_output_unet s hreg⟩

theorem C4_shape_invariance_witness :
    (LiverFC.compute_input LiverFC.exStateC10).length
        = (LiverFC.onSimulationInitDoneEvent LiverFC.exStateC10).input_size
    ∧ (LiverUNet.compute_input LiverUNet.exStateC9).length
        = LiverUNet.exStateC9.data_size := by
  exact ⟨(C4_shape_invariance.1 LiverFC.exStateC10 LiverFC.exStateC10 rfl rfl rfl rfl).1,
    (C4_shape_invariance.2 LiverUNet.exStateC9 (by decide)).1⟩

/-- C5: `apply_prediction`, given a flat prediction whose length is the
product of the fixed output shape `(n, 3)`, writes exactly
`rest_position + reshaped` (FC) or `rest_position + reshaped[index table]`
(UNet) into the nn model's position buffer and changes nothing else: the fem
model, the rest positions, the force fields, the index table, the rest shape
and the fixed sizes are untouched. -/
theorem C5_apply_prediction_frame :
    (∀ (s : LiverFC.State) (p : List Scalar),
      p.length = 3 * s.output_size →
      (LiverFC.apply_prediction s p).n_sparse_grid_mo.position
          = List.zipWith (· + ·) s.n_sparse_grid_mo.rest_position (chunk3 p)
        ∧ (LiverFC.apply_prediction s p).n_sparse_grid_mo.rest_position
          = s.n_sparse_grid_mo.rest_position
        ∧ (LiverFC.apply_prediction s p).f_sparse_grid_mo = s.f_sparse_grid_mo
        ∧ (LiverFC.apply_prediction s p).n_surface_mo = s.n_surface_mo
        ∧ (LiverFC.apply_prediction s p).force_field = s.force_field
        ∧ (LiverFC.apply_prediction s p).input_size = s.input_size
        ∧ (LiverFC.apply_prediction s p).output_size = s.output_size)
    ∧ (∀ (s : LiverUNet.State) (p : List Scalar),
      p.length = 3 * s.data_size →
      (LiverUNet.apply_prediction s p).n_sparse_grid_mo.position
          = List.zipWith (· + ·) s.n_sparse_grid_mo.rest_position
              (s.idx_sparse_to_regular.map (fun k => (chunk3 p).getD k 0))
        ∧ (LiverUNet.apply_prediction s p).n_sparse_grid_mo.rest_position
          = s.n_sparse_grid_mo.rest_position
        ∧ (LiverUNet.apply_prediction s p).f_sparse_grid_mo = s.f_sparse_grid_mo
        ∧ (LiverUNet.apply_prediction s p).f_surface_mo = s.f_surface_mo
        ∧ (LiverUNet.apply_prediction s p).n_surface_mo = s.n_surface_mo
        ∧ (LiverUNet.apply_prediction s p).idx_sparse_to_regular
          = s.idx_sparse_to_regular
        ∧ (LiverUNet.apply_prediction s p).regular_grid_rest_shape
          = s.regular_grid_rest_shape
        ∧ (LiverUNet.apply_prediction s p).force_field = s.force_field
        ∧ (LiverUNet.apply_prediction s p).data_size = s.data_size) := by
  exact ⟨fun s p _ => ⟨rfl, rfl, rfl, rfl, rfl, rfl, rfl⟩,
    fun s p _ => ⟨rfl, rfl, rfl, rfl, rfl, rfl, rfl, rfl, rfl⟩⟩

theorem C5_apply_prediction_frame_witness :
    (LiverFC.apply_prediction LiverFC.exStateC10 [1, 0, 0, 0, 2, 0]).n_sparse_grid_mo.position
        = List.zipWith (· + ·) LiverFC.exStateC10.n_sparse_grid_mo.rest_position
            (chunk3 [1, 0, 0, 0, 2, 0])
    ∧ (LiverFC.apply_prediction LiverFC.exStateC10
        [1, 0, 0, 0, 2, 0]).f_sparse_grid_mo = LiverFC.exStateC10.f_sparse_grid_mo := by
  exact ⟨(C5_apply_prediction_frame.1 LiverFC.exStateC10 [1, 0, 0, 0, 2, 0] (by decide)).1,
    (C5_apply_prediction_frame.1 LiverFC.exStateC10 [1, 0, 0, 0, 2, 0] (by decide)).2.2.1⟩

/-! ## `src/Environment/launcherSofaEnvironment.py` — worker process entry point -/

namespace Launcher

/-- Python strings are modelled as character lists so that every slicing and
splitting operation of the launcher evaluates by kernel reduction. -/
abbrev PyStr := List Char

/-- Python's `s[1:-1]`: remove the first and the last character (empty result
when the string has fewer than two characters, as in Python). -/
def pySlice1m1 (s : PyStr) : PyStr := (s.drop 1).dropLast

/-- Python's `s[:-n]`: remove the last `n` characters. -/
def pyDropLastN (n : Nat) (s : PyStr) : PyStr := s.take (s.length - n)

/-- Whether `sep` stands at the front of `s`. -/
def matchesFront : PyStr → PyStr → Bool
  | [], _ => true
  | _ :: _, [] => false
  | a :: as, b :: bs => a == b && matchesFront as bs

/-- Worker for `pySplit`, with fuel for termination: scan left to right,
cutting at each non-overlapping occurrence of the separator, exactly like
Python's `str.split(sep)` for a nonempty separator. -/
def pySplitAux (sep : PyStr) : Nat → PyStr → PyStr → List PyStr
  | 0, acc, rest => [acc.reverse ++ rest]
  | _ + 1, acc, [] => [acc.reverse]
  | fuel + 1, acc, c :: cs =>
    if matchesFront sep (c :: cs) then
      acc.reverse :: pySplitAux sep fuel [] ((c :: cs).drop sep.length)
    else
      pySplitAux sep fuel (c :: acc) cs

/-- Python's `s.split(sep)` for a nonempty `sep`. -/
def pySplit (sep s : PyStr) : List PyStr := pySplitAux sep (s.length + 1) [] s

def pyDigitsAux : PyStr → Nat → Option Nat
  | [], acc => some acc
  | c :: cs, acc => if c.isDigit then pyDigitsAux cs (acc * 10 + (c.toNat - 48)) else none

/-- Python's `int(s)` on plain decimal strings (optional leading minus);
`none` models the `ValueError` on anything else. -/
def pyInt (s : PyStr) : Option Int :=
  match s with
  | [] => none
  | '-' :: rest =>
    if rest = [] then none else (pyDigitsAux rest 0).map (fun n => -(n : Int))
  | _ => (pyDigitsAux s 0).map (fun n => (n : Int))

/-- `visualization_db = None if argv[7] == 'None' else
[s[1:-1] for s in argv[7][1:-1].split(', ')]`. -/
def parse_visualization_db (a : PyStr) : Option (List PyStr) :=
  if a = "None".toList then none
  else some ((pySplit (", ".toList) (pySlice1m1 a)).map pySlice1m1)

/-- `module_name = argv[1].split(sep)[-1][:-3]` with the POSIX separator. -/
def pyModuleName (file_path : PyStr) : PyStr :=
  pyDropLastN 3 ((pySplit ("/".toList) file_path).getLastD [])

/-- The arguments the launcher hands to `TcpIpClient(...)`. -/
structure ClientConfig where
  ip_address : PyStr
  port : Option Int
  instance_id : Option Int
  instance_nb : Option Int
  visualization_db : Option (List PyStr)
  deriving DecidableEq

/-- Observable behaviour of one run of the `__main__` block: whether the
usage message was printed, the exit code (if the process exited early),
whether the environment class was imported, the resolved module name, and the
client that was constructed. -/
structure LaunchOutcome where
  usage_printed : Bool
  exit_code : Option Nat
  imported_environment : Bool
  module_name : Option PyStr
  client : Option ClientConfig
  deriving DecidableEq

/-- The `__main__` block of `launcherSofaEnvironment.py`: with `len(argv)`
different from 8 it prints the usage line and exits with code 1 before the
dynamic import and before constructing the client; otherwise it resolves the
module, parses the arguments and constructs the `TcpIpClient`. -/
def launcherMain (argv : List PyStr) : LaunchOutcome :=
  if argv.length ≠ 8 then
    { usage_printed := true
      exit_code := some 1
      imported_environment := false
      module_name := none
      client := none }
  else
    { usage_printed := false
      exit_code := none
      imported_environment := true
      module_name := some (pyModuleName (argv.getD 1 []))
      client := some
        { ip_address := argv.getD 3 []
          port := pyInt (argv.getD 4 [])
          instance_id := pyInt (argv.getD 5 [])
          instance_nb := pyInt (argv.getD 6 [])
          visualization_db := parse_visualization_db (argv.getD 7 []) } }

end Launcher

/-- C7: for every argument vector whose length differs from 8 (program name
plus the seven positional parameters), the launcher prints the usage message
and terminates with exit code 1, importing no environment class and
constructing no client. -/
theorem C7_launcher_usage_exit (argv : List Launcher.PyStr)
    (h : argv.length ≠ 8) :
    Launcher.launcherMain argv
      = { usage_printed := true
          exit_code := some 1
          imported_environment := false
          module_name := none
          client := none } := by
  unfold Launcher.launcherMain
  rw [if_pos h]

theorem C7_launcher_usage_exit_witness :
    (["prog".toList, "env.py".toList].length ≠ 8)
    ∧ Launcher.launcherMain ["prog".toList, "env.py".toList]
      = { usage_printed := true
          exit_code := some 1
          imported_environment := false
          module_name := none
          client := none } :=
  ⟨by decide, C7_launcher_usage_exit ["prog".toList, "env.py".toList] (by decide)⟩

/-- C8: the `visualization_db_spec` argument parses to `None` exactly on the
literal token `None`; any other argument parses to the list obtained by
stripping its first and last character, splitting on the two-character
separator `", "`, and stripping the first and last character of each piece. -/
theorem C8_visu_db_parsing :
    Launcher.parse_visualization_db ("None".toList) = none
    ∧ ∀ a : Launcher.PyStr, a ≠ "None".toList →
      Launcher.parse_visualization_db a
        = some ((Launcher.pySplit (", ".toList) ((a.drop 1).dropLast)).map
            (fun piece => (piece.drop 1).dropLast)) := by
  constructor
  · unfold Launcher.parse_visualization_db
    rw [if_pos rfl]
  · intro a ha
    unfold Launcher.parse_visualization_db
    rw [if_neg ha]
    rfl

theorem C8_visu_db_parsing_witness :
    ("['a', 'bc']".toList ≠ "None".toList)
    ∧ Launcher.parse_visualization_db "['a', 'bc']".toList
      = some ["a".toList, "bc".toList] := by
  refine ⟨by decide, ?_⟩
  rw [C8_visu_db_parsing.2 "['a', 'bc']".toList (by decide)]
  decide
